import Mathlib

/-!
# LaunchPad core: project/component lifecycle model

Shallow embedding of the LaunchPad core modules:

* `src/src/core/project.py` — entity model (`HealthCheck`, `QuickLink`,
  `FolderLink`, `HistoryEvent`, `Component`, `Project`) with its
  `to_dict` / `from_dict` serialization and the domain helpers
  (`add_history`, `touch`);
* `src/backend/src/core/launcher.py` — the `LaunchService` status
  engine (`_derive_project_status`, `_component_action`,
  `launch_project`, `_finalise_project_update`, `_limit`);
* `src/backend/src/core/database.py` — the `ProjectDatabase`
  persistence layer (`upsert_project`, `get_project`, `list_projects`).

Modelling conventions:

* Python `datetime` values are represented by their ISO-8601 strings
  (`datetime.fromisoformat (d.isoformat()) == d`, so the representation
  is lossless); `isoformat` is never the empty string, hence the
  nonempty-string subtype.
* Python floats carry no arithmetic in this core (`usage_hours` is only
  stored and passed through `float(x)`, the identity on floats), so they
  are represented by rationals.
* Effectful reads of the clock (`datetime.now().strftime("%H:%M")`,
  `datetime.utcnow()`) become explicit parameters of the operations.
* Dict payloads are JSON-like values (`PyValue`); this is exactly the
  range of `Project.to_dict` and of `json.loads` on the stored `data`
  column.  Python code paths that would raise on non-JSON objects
  (e.g. `None.isoformat()`) are modelled with `Option`.
-/

namespace LaunchPad

/-- ISO-8601 rendering of a Python `datetime`; `isoformat()` never
returns the empty string. -/
abbrev DateTime : Type := {s : String // s ≠ ""}

/-- JSON-like Python values appearing in the dict payloads exchanged by
`to_dict` / `from_dict` and stored in the database `data` column. -/
inductive PyValue where
  | none
  | str (s : String)
  | bool (b : Bool)
  | num (q : ℚ)
  | list (items : List PyValue)
  | dict (entries : List (String × PyValue))

/-- `payload.get(k)`: first binding of `k` in the payload, if any. -/
def dictGet (entries : List (String × PyValue)) (k : String) : Option PyValue :=
  (entries.find? (fun e => e.1 == k)).map (fun e => e.2)

/-- `payload.get(k, d)`. -/
def dictGetD (entries : List (String × PyValue)) (k : String) (d : PyValue) : PyValue :=
  (dictGet entries k).getD d

/-- Python `str(v)`.  The claims only exercise the string case; the
renderings of the other constructors are placeholders for Python's
`str()` output, which no modelled code path inspects. -/
def pyStr : PyValue → String
  | .str s => s
  | .none => "None"
  | .bool b => if b then "True" else "False"
  | .num q => toString q
  | .list _ => "<list>"
  | .dict _ => "<dict>"

/-- Python truthiness (`bool(v)` / `if v:`). -/
def pyTruthy : PyValue → Bool
  | .none => false
  | .str s => !(s == "")
  | .bool b => b
  | .num q => !(q == 0)
  | .list l => !l.isEmpty
  | .dict d => !d.isEmpty

/-- Python `float(v)`.  Only the numeric case is exercised by the
modelled code (`usage_hours` payload values are numbers). -/
def pyFloat : PyValue → ℚ
  | .num q => q
  | .bool b => if b then 1 else 0
  | _ => 0

/-- `_normalize_sequence` from `src/src/core/project.py`: `None` becomes
`[]`; a string is split on commas, entries trimmed, empties dropped; a
mapping is wrapped in a singleton list; an iterable is listed; anything
else is wrapped in a singleton list. -/
def normalizeSequence : PyValue → List PyValue
  | .none => []
  | .str s => (((s.splitOn ",").map String.trim).filter (fun t => !(t == ""))).map PyValue.str
  | .dict d => [.dict d]
  | .list items => items
  | v => [v]

/-- `HealthCheck` dataclass. -/
structure HealthCheck where
  label : String
  status : String
  detail : String
  deriving DecidableEq

/-- `HealthCheck.to_dict`. -/
def HealthCheck.to_dict (h : HealthCheck) : PyValue :=
  .dict [("label", .str h.label), ("status", .str h.status), ("detail", .str h.detail)]

/-- `HealthCheck.from_dict` (argument: the mapping's entries). -/
def HealthCheck.from_dict (entries : List (String × PyValue)) : HealthCheck where
  label := pyStr (dictGetD entries "label" (.str ""))
  status := pyStr (dictGetD entries "status" (.str ""))
  detail := pyStr (dictGetD entries "detail" (.str ""))

/-- `QuickLink` dataclass. -/
structure QuickLink where
  label : String
  url : String
  deriving DecidableEq

/-- `QuickLink.to_dict`. -/
def QuickLink.to_dict (l : QuickLink) : PyValue :=
  .dict [("label", .str l.label), ("url", .str l.url)]

/-- `QuickLink.from_dict`. -/
def QuickLink.from_dict (entries : List (String × PyValue)) : QuickLink where
  label := pyStr (dictGetD entries "label" (.str ""))
  url := pyStr (dictGetD entries "url" (.str ""))

/-- `FolderLink` dataclass. -/
structure FolderLink where
  label : String
  path : String
  deriving DecidableEq

/-- `FolderLink.to_dict`. -/
def FolderLink.to_dict (l : FolderLink) : PyValue :=
  .dict [("label", .str l.label), ("path", .str l.path)]

/-- `FolderLink.from_dict`. -/
def FolderLink.from_dict (entries : List (String × PyValue)) : FolderLink where
  label := pyStr (dictGetD entries "label" (.str ""))
  path := pyStr (dictGetD entries "path" (.str ""))

/-- `HistoryEvent` dataclass. -/
structure HistoryEvent where
  time : String
  description : String
  deriving DecidableEq

/-- `HistoryEvent.to_dict`. -/
def HistoryEvent.to_dict (e : HistoryEvent) : PyValue :=
  .dict [("time", .str e.time), ("description", .str e.description)]

/-- `HistoryEvent.from_dict`. -/
def HistoryEvent.from_dict (entries : List (String × PyValue)) : HistoryEvent where
  time := pyStr (dictGetD entries "time" (.str ""))
  description := pyStr (dictGetD entries "description" (.str ""))

/-- `Component` dataclass. -/
structure Component where
  name : String
  status : String
  summary : String
  status_detail : String
  logs : List String
  health_checks : List HealthCheck
  deriving DecidableEq

/-- `Component.to_dict`. -/
def Component.to_dict (c : Component) : PyValue :=
  .dict [("name", .str c.name), ("status", .str c.status),
         ("summary", .str c.summary), ("statusDetail", .str c.status_detail),
         ("logs", .list (c.logs.map PyValue.str)),
         ("healthChecks", .list (c.health_checks.map HealthCheck.to_dict))]

/-- Entries of a mapping value; other values yield no entries (Python
would raise for them before reaching the modelled accesses). -/
def asDict : PyValue → Option (List (String × PyValue))
  | .dict d => some d
  | _ => Option.none

/-- `Component.from_dict`: `logs` through `_normalize_sequence` then
stringified; `healthChecks` through `_normalize_sequence` keeping only
mapping entries. -/
def Component.from_dict (entries : List (String × PyValue)) : Component where
  name := pyStr (dictGetD entries "name" (.str ""))
  status := pyStr (dictGetD entries "status" (.str ""))
  summary := pyStr (dictGetD entries "summary" (.str ""))
  status_detail := pyStr (dictGetD entries "statusDetail" (dictGetD entries "status_detail" (.str "")))
  logs := (normalizeSequence ((dictGet entries "logs").getD .none)).map pyStr
  health_checks :=
    (normalizeSequence (dictGetD entries "healthChecks" (.list []))).filterMap
      (fun v => (asDict v).map HealthCheck.from_dict)

/-- `Project` dataclass, after `__post_init__` (which guarantees
`last_profile` is not `None` and `tags` is a normalized list). -/
structure Project where
  key : String
  name : String
  icon : String
  default_profile : String
  summary : String
  tags : List String
  status : String
  favorite : Bool
  active : Bool
  last_profile : String
  usage_hours : ℚ
  components : List Component
  quick_links : List QuickLink
  folders : List FolderLink
  history : List HistoryEvent
  health_checks : List HealthCheck
  created_at : Option DateTime
  updated_at : Option DateTime
  deriving DecidableEq

/-- `Project.to_dict`: fixed entries plus `createdAt` / `updatedAt`
only when the timestamps are present. -/
def Project.to_dict (p : Project) : List (String × PyValue) :=
  [("key", .str p.key), ("name", .str p.name), ("icon", .str p.icon),
   ("defaultProfile", .str p.default_profile), ("lastProfile", .str p.last_profile),
   ("summary", .str p.summary), ("tags", .list (p.tags.map PyValue.str)),
   ("status", .str p.status), ("favorite", .bool p.favorite), ("active", .bool p.active),
   ("usageHours", .num p.usage_hours),
   ("components", .list (p.components.map Component.to_dict)),
   ("quickLinks", .list (p.quick_links.map QuickLink.to_dict)),
   ("folders", .list (p.folders.map FolderLink.to_dict)),
   ("history", .list (p.history.map HistoryEvent.to_dict)),
   ("healthChecks", .list (p.health_checks.map HealthCheck.to_dict))]
  ++ (match p.created_at with
      | some t => [("createdAt", .str t.val)]
      | Option.none => [])
  ++ (match p.updated_at with
      | some t => [("updatedAt", .str t.val)]
      | Option.none => [])

/-- `Project.to_overview`: the reduced payload for the home grid, with
tags joined into one comma-separated display string. -/
def Project.to_overview (p : Project) : List (String × PyValue) :=
  [("key", .str p.key), ("name", .str p.name), ("icon", .str p.icon),
   ("lastProfile", .str p.last_profile),
   ("tags", .str (String.intercalate ", " p.tags)),
   ("status", .str p.status), ("favorite", .bool p.favorite),
   ("active", .bool p.active), ("usageHours", .num p.usage_hours)]

/-- `datetime.fromisoformat(v) if v else None`: a falsy value (absent
key, `None`, empty string) yields no timestamp; a nonempty string is a
timestamp. -/
def parseTimestamp (v : Option PyValue) : Option DateTime :=
  match v with
  | some (.str s) => if h : s = "" then Option.none else some ⟨s, h⟩
  | _ => Option.none

/-- `Project.from_dict`, composed with `__post_init__`: nested
collections filtered to mapping entries, tags normalized, a missing
`lastProfile` defaulting to the default profile. -/
def Project.from_dict (entries : List (String × PyValue)) : Project :=
  let dp := pyStr (dictGetD entries "defaultProfile" (dictGetD entries "default_profile" (.str "dev")))
  let lastRaw := (dictGet entries "lastProfile").getD (dictGetD entries "last_profile" .none)
  { key := pyStr (dictGetD entries "key" (.str ""))
    name := pyStr (dictGetD entries "name" (.str ""))
    icon := pyStr (dictGetD entries "icon" (.str "📁"))
    default_profile := dp
    summary := pyStr (dictGetD entries "summary" (.str ""))
    tags := (normalizeSequence (dictGetD entries "tags" (.list []))).map pyStr
    status := pyStr (dictGetD entries "status" (.str "Ready"))
    favorite := pyTruthy (dictGetD entries "favorite" (.bool false))
    active := pyTruthy (dictGetD entries "active" (.bool false))
    last_profile := match lastRaw with
      | .none => dp
      | v => pyStr v
    usage_hours := pyFloat (dictGetD entries "usageHours" (dictGetD entries "usage_hours" (.num 0)))
    components :=
      (normalizeSequence (dictGetD entries "components" (.list []))).filterMap
        (fun v => (asDict v).map Component.from_dict)
    quick_links :=
      (normalizeSequence (dictGetD entries "quickLinks" (.list []))).filterMap
        (fun v => (asDict v).map QuickLink.from_dict)
    folders :=
      (normalizeSequence (dictGetD entries "folders" (.list []))).filterMap
        (fun v => (asDict v).map FolderLink.from_dict)
    history :=
      (normalizeSequence (dictGetD entries "history" (.list []))).filterMap
        (fun v => (asDict v).map HistoryEvent.from_dict)
    health_checks :=
      (normalizeSequence (dictGetD entries "healthChecks" (.list []))).filterMap
        (fun v => (asDict v).map HealthCheck.from_dict)
    created_at := parseTimestamp (dictGet entries "createdAt")
    updated_at := parseTimestamp (dictGet entries "updatedAt") }

/-- `Project.add_history`: append one `HistoryEvent` (the timestamp,
`datetime.now().strftime("%H:%M")` when not supplied, is an explicit
parameter here). -/
def Project.add_history (p : Project) (description : String) (timestamp : String) : Project :=
  { p with history := p.history ++ [{ time := timestamp, description := description }] }

/-- `Project.touch`: refresh `updated_at` to now. -/
def Project.touch (p : Project) (now : DateTime) : Project :=
  { p with updated_at := some now }

/-!
## `src/backend/src/core/launcher.py` — the `LaunchService` engine

The service holds `self._projects : Dict[str, Project]`, modelled as an
association list.  The two clock reads of each operation are explicit
parameters: `t` is `_timestamp()` (the local `"%H:%M"` string, also the
default timestamp of `add_history`), `now` is `datetime.utcnow()` used
by `touch`.
-/

/-- `_limit(entries, maximum)`: the last `maximum` entries. -/
def limitEntries (entries : List String) (maximum : Nat) : List String :=
  if entries.length ≤ maximum then entries
  else entries.drop (entries.length - maximum)

/-- Does `hay` start with `needle` (on character lists)? -/
def startsWithChars : List Char → List Char → Bool
  | _, [] => true
  | [], _ :: _ => false
  | a :: as, b :: bs => a == b && startsWithChars as bs

/-- Does `hay` contain `needle` as a contiguous run (on character
lists)? -/
def containsChars (needle : List Char) : List Char → Bool
  | [] => needle.isEmpty
  | a :: as => startsWithChars (a :: as) needle || containsChars needle as

/-- Python `needle in hay` on strings: substring containment. -/
def containsSub (hay needle : String) : Bool :=
  containsChars needle.toList hay.toList

/-- Python `str.lower()`: ASCII case folding (the lowered statuses are
ASCII), written on the character list so that it computes. -/
def strLower (s : String) : String :=
  ⟨s.data.map Char.toLower⟩

/-- `LaunchService._derive_project_status`. -/
def deriveProjectStatus (p : Project) : String :=
  let statuses := p.components.map (fun c => strLower c.status)
  if statuses.isEmpty then "Ready"
  else if statuses.any (fun s => containsSub s "fail" || containsSub s "error") then
    "Needs Attention"
  else if statuses.any (fun s => containsSub s "running") then "Running"
  else if statuses.any (fun s => containsSub s "paused") then "Paused"
  else if statuses.all (fun s => containsSub s "stopped") then "Stopped"
  else "Ready"

/-- `LaunchService._set_component_status`: set status and detail, append
a `"[t] status: detail"` log line, trim logs to the last 100. -/
def setComponentStatus (t : String) (c : Component) (status detail : String) : Component :=
  { c with status := status, status_detail := detail,
           logs := limitEntries (c.logs ++ ["[" ++ t ++ "] " ++ status ++ ": " ++ detail]) 100 }

/-- `LaunchService._set_component_running`. -/
def setComponentRunning (t : String) (c : Component) (context : String) : Component :=
  setComponentStatus t c "Running" context

/-- `LaunchService._find_component`: first component with the given
name, if any. -/
def findComponent (p : Project) (component_name : String) : Option Component :=
  p.components.find? (fun c => c.name == component_name)

/-- `LaunchService._finalise_project_update`: re-derive the aggregate
status, derive `active`, refresh `updated_at`. -/
def finaliseProjectUpdate (now : DateTime) (p : Project) : Project :=
  let status := deriveProjectStatus p
  Project.touch { p with status := status,
                         active := status == "Running" || status == "Paused" } now

/-- The service's `self._projects` dict (keyed by project key). -/
abbrev ServiceState : Type := List (String × Project)

/-- `self._projects.get(project_key)`. -/
def getProject (st : ServiceState) (project_key : String) : Option Project :=
  (List.find? (fun e => e.1 == project_key) st).map (fun e => e.2)

/-- In-place mutation of the project object held in the dict: the entry
for `key` now holds the updated project. -/
def setProject (st : ServiceState) (key : String) (p : Project) : ServiceState :=
  List.map (fun e : String × Project => if e.1 == key then (e.1, p) else e) st

/-- `LaunchService._result_payload`: `{"project": to_dict, "overview":
to_overview}`.  A component action returning the empty dict `{}` is
modelled as `Option.none`. -/
structure ResultPayload where
  project : List (String × PyValue)
  overview : List (String × PyValue)

/-- Build the result payload of a successful operation. -/
def resultPayload (p : Project) : ResultPayload where
  project := p.to_dict
  overview := p.to_overview

/-- Replace (mutate in place) the first component with the given name. -/
def replaceFirstComponent : List Component → String → Component → List Component
  | [], _, _ => []
  | x :: xs, n, c => if x.name == n then c :: xs else x :: replaceFirstComponent xs n c

/-- `LaunchService.launch_project`: resolve the effective profile
(`profile or last_profile or default_profile`), start every component
with detail `"Launch profile <p>"`, set `last_profile`, append one
`"Launch (<p>)"` history entry, finalise, and store the mutated
project; an unknown key returns the empty result with no change. -/
def launch_project (t : String) (now : DateTime) (st : ServiceState)
    (project_key profile : String) : ServiceState × Option ResultPayload :=
  match getProject st project_key with
  | Option.none => (st, Option.none)
  | some project =>
    let active_profile :=
      if profile ≠ "" then profile
      else if project.last_profile ≠ "" then project.last_profile
      else project.default_profile
    let project := { project with
      components := project.components.map
        (fun c => setComponentRunning t c ("Launch profile " ++ active_profile)) }
    let project := { project with last_profile := active_profile }
    let project := project.add_history ("Launch (" ++ active_profile ++ ")") t
    let project := finaliseProjectUpdate now project
    (setProject st project_key project, some (resultPayload project))

/-- The `if action == ... / elif ... / else` dispatch of
`_component_action`: the transitioned component and the history entry
text, or nothing for an unrecognized action string. -/
def actionStep (t : String) (component : Component) (action : String) :
    Option (Component × String) :=
  if action = "start" then
    some (setComponentRunning t component "Manual start", "Start " ++ component.name)
  else if action = "stop" then
    some (setComponentStatus t component "Stopped" "Stopped via LaunchPad",
          "Stop " ++ component.name)
  else if action = "pause" then
    some (setComponentStatus t component "Paused" "Paused via LaunchPad",
          "Pause " ++ component.name)
  else if action = "resume" then
    some (setComponentRunning t component "Resume", "Resume " ++ component.name)
  else Option.none

/-- `LaunchService._component_action` (the body shared by
`start_component`, `stop_component`, `pause_component`,
`resume_component`): unknown project, unknown component, or an
unrecognized action string return the empty result with no change;
otherwise the component transition and history append run, then the
project is finalised and stored. -/
def componentAction (t : String) (now : DateTime) (st : ServiceState)
    (project_key component_name action : String) : ServiceState × Option ResultPayload :=
  match getProject st project_key with
  | Option.none => (st, Option.none)
  | some project =>
    match findComponent project component_name with
    | Option.none => (st, Option.none)
    | some component =>
      match actionStep t component action with
      | Option.none => (st, Option.none)
      | some (c, desc) =>
        let project := { project with
          components := replaceFirstComponent project.components component_name c }
        let project := project.add_history desc t
        let project := finaliseProjectUpdate now project
        (setProject st project_key project, some (resultPayload project))

/-!
## `src/backend/src/core/database.py` — `ProjectDatabase`

The `projects` table is a list of rows; `key` is the primary key (all
reachable tables have pairwise distinct keys).  The `data` column holds
the canonical payload: `json.dumps`/`json.loads` are lossless on these
JSON values, so the column stores the payload entries directly.
-/

/-- One row of the `projects` table (schema of `_ensure_schema`). -/
structure DbRow where
  key : String
  name : String
  icon : String
  default_profile : String
  last_profile : String
  summary : String
  tags : String
  status : String
  favorite : Bool
  active : Bool
  usage_hours : ℚ
  data : List (String × PyValue)
  created_at : String
  updated_at : String

/-- The `projects` table. -/
abbrev Table : Type := List DbRow

/-- The row stored under a key, if any. -/
def rowFor (db : Table) (key : String) : Option DbRow :=
  List.find? (fun r => r.key == key) db

/-- `ProjectDatabase._row_to_project`: decode the `data` column. -/
def rowToProject (r : DbRow) : Project :=
  Project.from_dict r.data

/-- `ProjectDatabase.get_project`: decode the row under `key`, absent
keys signalled by `Option.none` (no exception). -/
def db_get_project (db : Table) (key : String) : Option Project :=
  (rowFor db key).map rowToProject

/-- SQLite's BINARY collation compares the UTF-8 encodings bytewise;
UTF-8 preserves codepoint order, so this is codepoint-lexicographic
comparison of the character lists. -/
def charListLe : List Char → List Char → Bool
  | [], _ => true
  | _ :: _, [] => false
  | a :: as, b :: bs => if a = b then charListLe as bs else decide (a < b)

/-- `ORDER BY name ASC` under the BINARY collation. -/
def nameLe (a b : String) : Bool :=
  charListLe a.toList b.toList

/-- The row order used by `list_projects`. -/
def rowNameLe (a b : DbRow) : Prop :=
  nameLe a.name b.name = true

instance : DecidableRel rowNameLe :=
  fun a b => inferInstanceAs (Decidable (nameLe a.name b.name = true))

/-- `ProjectDatabase.list_projects`: `SELECT data FROM projects ORDER BY
name ASC` decodes every row, ordered by the `name` column under
SQLite's BINARY collation (the SQL sort is modelled by a sort in the
embedding; SQLite leaves the order of ties unspecified). -/
def db_list_projects (db : Table) : List Project :=
  (List.insertionSort rowNameLe db).map rowToProject

/-- `Project.tags_as_text`: tags joined with `", "`. -/
def Project.tags_as_text (p : Project) : String :=
  String.intercalate ", " p.tags

/-- The `created_at` filling of `upsert_project`: a missing value is
taken from the stored project when the key exists, else from `now`; a
present value is kept. -/
def filledCreatedAt (now : DateTime) (existing : Option Project) (p : Project) :
    Option DateTime :=
  if p.created_at = Option.none then
    match existing with
    | some e => e.created_at
    | Option.none => some now
  else p.created_at

/-- The row written by `upsert_project` for a project whose `created_at`
is `cAt` (the denormalized columns and the `data` snapshot). -/
def upsertRow (now : DateTime) (project : Project) (cAt : DateTime) : DbRow :=
  { key := project.key, name := project.name, icon := project.icon,
    default_profile := project.default_profile, last_profile := project.last_profile,
    summary := project.summary, tags := project.tags_as_text,
    status := project.status, favorite := project.favorite, active := project.active,
    usage_hours := project.usage_hours, data := project.to_dict,
    created_at := cAt.val, updated_at := now.val }

/-- `ProjectDatabase.upsert_project`: fill a missing `created_at` from
the stored project (else from `now`), refresh `updated_at`, then
`INSERT ... ON CONFLICT(key) DO UPDATE` of every column except `key`
and `created_at`.  `Option.none` models the `AttributeError` raised by
`None.isoformat()` when `created_at` is still absent at write time
(impossible on rows this function wrote). -/
def upsert_project (now : DateTime) (db : Table) (project0 : Project) :
    Option (Table × Project) :=
  let existing := db_get_project db project0.key
  let project := { project0 with
    created_at := filledCreatedAt now existing project0,
    updated_at := some now }
  match project.created_at with
  | Option.none => Option.none
  | some cAt =>
    let row := upsertRow now project cAt
    if db.any (fun r => r.key == project.key) then
      some (db.map (fun r => if r.key == project.key then
              { row with created_at := r.created_at } else r), project)
    else
      some (db ++ [row], project)

/-!
## Specification-side definitions

`derive_status_spec` is written from the specification's words (§4.2
precedence list over the lowered component statuses, first match wins,
case-insensitive substring match) for comparison against the
implementation's `_derive_project_status`.
-/

/-- The aggregate status precedence of the specification, as a function
of the component status multiset (here: list): empty → `"Ready"`; any
lowered status containing `"fail"` or `"error"` → `"Needs Attention"`;
else any containing `"running"` → `"Running"`; else any containing
`"paused"` → `"Paused"`; else all containing `"stopped"` →
`"Stopped"`; otherwise `"Ready"`. -/
def derive_status_spec (statuses0 : List String) : String :=
  if (statuses0.map strLower).isEmpty then "Ready"
  else if (statuses0.map strLower).any
      (fun s => containsSub s "fail" || containsSub s "error") then "Needs Attention"
  else if (statuses0.map strLower).any (fun s => containsSub s "running") then "Running"
  else if (statuses0.map strLower).any (fun s => containsSub s "paused") then "Paused"
  else if (statuses0.map strLower).all (fun s => containsSub s "stopped") then "Stopped"
  else "Ready"

/-!
## Concrete fixtures

Small concrete projects, service states and tables used by the
counterexamples and witnesses below.
-/

/-- A concrete `datetime.utcnow()` value. -/
def T1 : DateTime := ⟨"2024-02-02T10:00:00", by decide⟩

/-- A later concrete `datetime.utcnow()` value. -/
def T2 : DateTime := ⟨"2024-02-03T11:30:00", by decide⟩

/-- A project whose history already holds 100 events. -/
def historyFullProject : Project :=
  { key := "demo", name := "Demo", icon := "📁", default_profile := "dev", summary := "",
    tags := [], status := "Ready", favorite := false, active := false,
    last_profile := "dev", usage_hours := 0,
    components := [], quick_links := [], folders := [],
    history := List.replicate 100 { time := "09:00", description := "tick" },
    health_checks := [], created_at := Option.none, updated_at := Option.none }

/-- A failed reverse-proxy component. -/
def gatewayComponent : Component :=
  { name := "API Gateway", status := "Failed", summary := "proxy",
    status_detail := "Container exited", logs := ["[07:12] nginx start"],
    health_checks := [] }

/-- A project with one component. -/
def oneComponentProject : Project :=
  { key := "one", name := "One", icon := "📁", default_profile := "dev", summary := "",
    tags := [], status := "Needs Attention", favorite := false, active := false,
    last_profile := "dev", usage_hours := 0,
    components := [gatewayComponent], quick_links := [], folders := [],
    history := [], health_checks := [],
    created_at := Option.none, updated_at := Option.none }

/-- A fresh project named `"a"` that carries no timestamps yet. -/
def demoProjectA : Project :=
  { key := "k1", name := "a", icon := "📁", default_profile := "dev", summary := "",
    tags := ["web"], status := "Ready", favorite := false, active := false,
    last_profile := "dev", usage_hours := 0,
    components := [], quick_links := [], folders := [], history := [],
    health_checks := [], created_at := Option.none, updated_at := Option.none }

/-- A fresh project named `"B"` that carries no timestamps yet. -/
def demoProjectB : Project :=
  { key := "k2", name := "B", icon := "📁", default_profile := "dev", summary := "",
    tags := [], status := "Ready", favorite := false, active := false,
    last_profile := "dev", usage_hours := 0,
    components := [], quick_links := [], folders := [], history := [],
    health_checks := [], created_at := Option.none, updated_at := Option.none }

/-- The table after inserting `demoProjectA` at `T1`. -/
def demoDb1 : Table := ((upsert_project T1 [] demoProjectA).map Prod.fst).getD []

/-- The project returned by that first upsert. -/
def demoP1 : Project := ((upsert_project T1 [] demoProjectA).map Prod.snd).getD demoProjectA

/-- The table after re-upserting `demoP1` at `T2`. -/
def demoDb2 : Table := ((upsert_project T2 demoDb1 demoP1).map Prod.fst).getD []

/-- The project returned by that second upsert. -/
def demoP2 : Project := ((upsert_project T2 demoDb1 demoP1).map Prod.snd).getD demoProjectA

/-- The table holding the projects named `"a"` and `"B"`. -/
def demoTable : Table := ((upsert_project T2 demoDb1 demoProjectB).map Prod.fst).getD []

/-- A concrete launch on a one-project service state. -/
def demoLaunch : ServiceState × Option ResultPayload :=
  launch_project "10:00" T1 [("one", oneComponentProject)] "one" "dev"

/-!
## Helper lemmas
-/

lemma any_perm {l₁ l₂ : List String} (h : l₁.Perm l₂) (f : String → Bool) :
    l₁.any f = l₂.any f := by
  rw [Bool.eq_iff_iff]
  simp only [List.any_eq_true]
  constructor
  · rintro ⟨x, hx, hfx⟩
    exact ⟨x, h.mem_iff.mp hx, hfx⟩
  · rintro ⟨x, hx, hfx⟩
    exact ⟨x, h.mem_iff.mpr hx, hfx⟩

lemma all_perm {l₁ l₂ : List String} (h : l₁.Perm l₂) (f : String → Bool) :
    l₁.all f = l₂.all f := by
  rw [Bool.eq_iff_iff]
  simp only [List.all_eq_true]
  constructor
  · intro ha x hx
    exact ha x (h.mem_iff.mpr hx)
  · intro ha x hx
    exact ha x (h.mem_iff.mp hx)

lemma isEmpty_perm {l₁ l₂ : List String} (h : l₁.Perm l₂) :
    l₁.isEmpty = l₂.isEmpty := by
  cases l₁ with
  | nil => simp [h.nil_eq.symm]
  | cons x xs =>
    cases l₂ with
    | nil => exact absurd h.symm.nil_eq (by simp)
    | cons y ys => rfl

/-- The implementation's derivation agrees with the spec precedence on
the project's component statuses. -/
lemma deriveProjectStatus_eq_spec (p : Project) :
    deriveProjectStatus p = derive_status_spec (p.components.map Component.status) := by
  simp [deriveProjectStatus, derive_status_spec, List.map_map, Function.comp]

/-- The spec precedence reads the statuses only through membership, so
it is a function of the multiset of statuses. -/
lemma derive_status_spec_perm {l₁ l₂ : List String} (h : l₁.Perm l₂) :
    derive_status_spec l₁ = derive_status_spec l₂ := by
  have hm : (l₁.map strLower).Perm (l₂.map strLower) := h.map _
  simp only [derive_status_spec, isEmpty_perm hm, any_perm hm, all_perm hm]

/-- `_finalise_project_update` leaves the component list unchanged. -/
lemma finalise_components (now : DateTime) (p : Project) :
    (finaliseProjectUpdate now p).components = p.components := rfl

/-- `_finalise_project_update` stores the derived status. -/
lemma finalise_status (now : DateTime) (p : Project) :
    (finaliseProjectUpdate now p).status = deriveProjectStatus p := rfl

/-- `_finalise_project_update` sets `active` from the derived status. -/
lemma finalise_active (now : DateTime) (p : Project) :
    (finaliseProjectUpdate now p).active =
      ((finaliseProjectUpdate now p).status == "Running"
        || (finaliseProjectUpdate now p).status == "Paused") := rfl

/-- `_finalise_project_update` refreshes `updated_at`. -/
lemma finalise_updated_at (now : DateTime) (p : Project) :
    (finaliseProjectUpdate now p).updated_at = some now := rfl

/-!
## C1 — status derivation
-/

/-- C1: the aggregate status derived after an action (what
`_finalise_project_update` stores) equals the fixed spec precedence
over the component statuses; the precedence is a function of the
multiset of statuses; and it maps `["Running", "Stopped"]` to
`"Running"`, `["Failed", "Running"]` to `"Needs Attention"`, `[]` to
`"Ready"`, and `["Stopped", "Stopped"]` to `"Stopped"`. -/
theorem derive_status_correct :
    (∀ p : Project, deriveProjectStatus p = derive_status_spec (p.components.map Component.status)) ∧
    (∀ (now : DateTime) (p : Project),
      (finaliseProjectUpdate now p).status = derive_status_spec (p.components.map Component.status)) ∧
    (∀ l₁ l₂ : List String, l₁.Perm l₂ → derive_status_spec l₁ = derive_status_spec l₂) ∧
    derive_status_spec ["Running", "Stopped"] = "Running" ∧
    derive_status_spec ["Failed", "Running"] = "Needs Attention" ∧
    derive_status_spec [] = "Ready" ∧
    derive_status_spec ["Stopped", "Stopped"] = "Stopped" := by
  refine ⟨deriveProjectStatus_eq_spec, ?_, ?_, ?_, ?_, ?_, ?_⟩
  · intro now p
    rw [finalise_status, deriveProjectStatus_eq_spec]
  · exact fun _ _ h => derive_status_spec_perm h
  · decide
  · decide
  · decide
  · decide

/-- C1 witness: the derivation at the concrete multiset
`{Running, Stopped}` does not depend on the order of the two component
statuses. -/
theorem derive_status_correct_witness :
    derive_status_spec ["Running", "Stopped"] = derive_status_spec ["Stopped", "Running"] :=
  derive_status_correct.2.2.1 ["Running", "Stopped"] ["Stopped", "Running"] (by decide)

/-!
## C7 — serialization round-trip
-/

lemma map_comp_pyStr_str (l : List String) : l.map (pyStr ∘ PyValue.str) = l := by
  induction l with
  | nil => rfl
  | cons x xs ih => simp [Function.comp, pyStr, ih]

lemma map_pyStr_str (l : List String) : (l.map PyValue.str).map pyStr = l := by
  rw [List.map_map, map_comp_pyStr_str]

lemma parseTimestamp_some (t : DateTime) : parseTimestamp (some (.str t.val)) = some t := by
  rcases t with ⟨s, hs⟩
  simp only [parseTimestamp]
  rw [dif_neg hs]

lemma parseTimestamp_none : parseTimestamp Option.none = Option.none := rfl

lemma filterMap_roundtrip {α : Type} {f : α → PyValue} {g : List (String × PyValue) → α}
    (h : ∀ a, (asDict (f a)).map g = some a) (l : List α) :
    (l.map f).filterMap (fun v => (asDict v).map g) = l := by
  induction l with
  | nil => rfl
  | cons x xs ih => simp [List.filterMap_cons, h x, ih]

lemma healthCheck_roundtrip (h : HealthCheck) :
    (asDict h.to_dict).map HealthCheck.from_dict = some h := rfl

lemma quickLink_roundtrip (l : QuickLink) :
    (asDict l.to_dict).map QuickLink.from_dict = some l := rfl

lemma folderLink_roundtrip (l : FolderLink) :
    (asDict l.to_dict).map FolderLink.from_dict = some l := rfl

lemma historyEvent_roundtrip (e : HistoryEvent) :
    (asDict e.to_dict).map HistoryEvent.from_dict = some e := rfl

lemma component_roundtrip (c : Component) :
    (asDict c.to_dict).map Component.from_dict = some c := by
  rcases c with ⟨name, status, summary, status_detail, logs, health_checks⟩
  simp only [Component.to_dict, asDict, Option.map_some']
  simp only [Component.from_dict, dictGetD, dictGet, List.find?, Option.getD,
    Option.map_some', Option.map_none']
  simp [normalizeSequence, map_pyStr_str, map_comp_pyStr_str,
    filterMap_roundtrip healthCheck_roundtrip, pyStr]

/-- C7: `from_dict` is a left inverse of `to_dict`: every `Project`
round-trips exactly through the payload, nested collections included;
an absent `created_at` / `updated_at` stays absent. -/
theorem project_roundtrip (p : Project) : Project.from_dict p.to_dict = p := by
  rcases p with ⟨key, name, icon, dp, summary, tags, status, fav, act, lp, uh,
    comps, qls, flds, hist, hcs, cAt, uAt⟩
  rcases cAt with _ | t <;> rcases uAt with _ | u <;>
  · simp only [Project.to_dict, List.append_assoc, List.cons_append, List.nil_append]
    simp only [Project.from_dict, dictGetD, dictGet, List.find?, Option.getD,
      Option.map_some', Option.map_none']
    simp [normalizeSequence, map_pyStr_str, map_comp_pyStr_str, pyStr, pyTruthy, pyFloat,
      parseTimestamp_none, parseTimestamp_some,
      filterMap_roundtrip healthCheck_roundtrip,
      filterMap_roundtrip quickLink_roundtrip,
      filterMap_roundtrip folderLink_roundtrip,
      filterMap_roundtrip historyEvent_roundtrip,
      filterMap_roundtrip component_roundtrip]

/-!
## C2 — history append has no cap
-/

/-- C2 counterexample: appending a 101st history event via
`add_history` to a project already holding 100 does not drop the oldest
entry — the history length becomes 101, not 100. -/
theorem add_history_cap_counterexample :
    historyFullProject.history.length = 100 ∧
    (historyFullProject.add_history "Stop API Gateway" "09:01").history.length = 101 ∧
    ¬ (historyFullProject.add_history "Stop API Gateway" "09:01").history.length = 100 := by
  refine ⟨?_, ?_, ?_⟩ <;> simp [historyFullProject, Project.add_history]

/-- C2 amended: `add_history` is append-only but uncapped — it always
appends exactly one event, so a project holding 100 history events
holds 101 afterwards; the 100-entry `_limit` cap applies to component
`logs` (it keeps the last 100 entries), not to history. -/
theorem add_history_no_cap :
    (∀ (p : Project) (d t : String),
      (p.add_history d t).history = p.history ++ [{ time := t, description := d }]) ∧
    (∀ (p : Project) (d t : String), p.history.length = 100 →
      (p.add_history d t).history.length = 101) ∧
    (∀ entries : List String,
      limitEntries entries 100 = entries.drop (entries.length - 100) ∧
      (limitEntries entries 100).length ≤ 100) := by
  refine ⟨fun p d t => rfl, ?_, ?_⟩
  · intro p d t h
    simp [Project.add_history, h]
  · intro entries
    unfold limitEntries
    by_cases h : entries.length ≤ 100
    · rw [if_pos h]
      rw [Nat.sub_eq_zero_of_le h, List.drop_zero]
      exact ⟨rfl, h⟩
    · rw [if_neg h]
      refine ⟨rfl, ?_⟩
      rw [List.length_drop]
      omega

/-- C2 witness: the amended behaviour at a concrete project holding 100
events — the append yields length 101. -/
theorem add_history_no_cap_witness :
    (historyFullProject.add_history "Launch (dev)" "09:01").history.length = 101 :=
  add_history_no_cap.2.1 historyFullProject "Launch (dev)" "09:01"
    (by simp [historyFullProject])

/-!
## C4 — launch_project
-/

/-- C4: for an existing key, `launch_project` resolves the effective
profile (argument if non-empty, else `last_profile`, else
`default_profile`), sets every component to `"Running"` with detail
`"Launch profile <p>"`, appends exactly one `"Launch (<p>)"` history
event, updates `last_profile`, re-derives the aggregate status by the
spec precedence, refreshes `updated_at`, and stores the updated
project; an unknown key returns the empty result and leaves the state
unchanged. -/
theorem launch_project_correct :
    (∀ (t : String) (now : DateTime) (st : ServiceState) (key profile : String),
      getProject st key = Option.none →
      launch_project t now st key profile = (st, Option.none)) ∧
    (∀ (t : String) (now : DateTime) (st : ServiceState) (key profile : String)
        (p : Project), getProject st key = some p →
      ∃ p', launch_project t now st key profile
              = (setProject st key p', some (resultPayload p')) ∧
        (let eff := if profile ≠ "" then profile
                    else if p.last_profile ≠ "" then p.last_profile
                    else p.default_profile
         p'.last_profile = eff ∧
         p'.components.length = p.components.length ∧
         (∀ c ∈ p'.components, c.status = "Running" ∧
            c.status_detail = "Launch profile " ++ eff) ∧
         p'.history = p.history ++ [{ time := t, description := "Launch (" ++ eff ++ ")" }] ∧
         p'.status = derive_status_spec (p'.components.map Component.status) ∧
         p'.updated_at = some now)) := by
  constructor
  · intro t now st key profile h
    simp [launch_project, h]
  · intro t now st key profile p h
    simp only [launch_project, h]
    refine ⟨_, rfl, ?_, ?_, ?_, ?_, ?_, ?_⟩
    · rfl
    · simp [finaliseProjectUpdate, Project.touch, Project.add_history]
    · intro c hc
      simp only [finaliseProjectUpdate, Project.touch, Project.add_history,
        List.mem_map] at hc
      obtain ⟨c0, _, rfl⟩ := hc
      exact ⟨rfl, rfl⟩
    · simp [finaliseProjectUpdate, Project.touch, Project.add_history]
    · rw [finalise_status, deriveProjectStatus_eq_spec, finalise_components]
    · rfl

/-- C4 witness: launching a concrete one-project state with an empty
profile argument resolves the effective profile to the stored
`last_profile`. -/
theorem launch_project_correct_witness :
    ∃ p', launch_project "10:00" T1 [("demo", historyFullProject)] "demo" ""
            = (setProject [("demo", historyFullProject)] "demo" p',
               some (resultPayload p')) ∧
      (let eff := if "" ≠ "" then ""
                  else if historyFullProject.last_profile ≠ "" then historyFullProject.last_profile
                  else historyFullProject.default_profile
       p'.last_profile = eff ∧
       p'.components.length = historyFullProject.components.length ∧
       (∀ c ∈ p'.components, c.status = "Running" ∧
          c.status_detail = "Launch profile " ++ eff) ∧
       p'.history = historyFullProject.history
          ++ [{ time := "10:00", description := "Launch (" ++ eff ++ ")" }] ∧
       p'.status = derive_status_spec (p'.components.map Component.status) ∧
       p'.updated_at = some T1) :=
  launch_project_correct.2 "10:00" T1
    [("demo", historyFullProject)] "demo" "" historyFullProject rfl

/-!
## C5 — `active` is derived from the aggregate status
-/

/-- C5: after every successful component action and every successful
launch, the stored project's `active` flag equals
`status ∈ {"Running", "Paused"}`. -/
theorem active_iff_running_or_paused :
    (∀ (t : String) (now : DateTime) (st : ServiceState)
        (k c a : String) (st' : ServiceState) (r : ResultPayload),
      componentAction t now st k c a = (st', some r) →
      ∃ p', st' = setProject st k p' ∧ r = resultPayload p' ∧
        p'.active = (p'.status == "Running" || p'.status == "Paused")) ∧
    (∀ (t : String) (now : DateTime) (st : ServiceState)
        (k profile : String) (st' : ServiceState) (r : ResultPayload),
      launch_project t now st k profile = (st', some r) →
      ∃ p', st' = setProject st k p' ∧ r = resultPayload p' ∧
        p'.active = (p'.status == "Running" || p'.status == "Paused")) := by
  constructor
  · intro t now st k c a st' r h
    cases hp : getProject st k with
    | none =>
      simp only [componentAction, hp] at h
      exact absurd (Prod.ext_iff.mp h).2 (by simp)
    | some p =>
      cases hc : findComponent p c with
      | none =>
        simp only [componentAction, hp, hc] at h
        exact absurd (Prod.ext_iff.mp h).2 (by simp)
      | some comp =>
        cases hs : actionStep t comp a with
        | none =>
          simp only [componentAction, hp, hc, hs] at h
          exact absurd (Prod.ext_iff.mp h).2 (by simp)
        | some cd =>
          obtain ⟨c0, desc⟩ := cd
          simp only [componentAction, hp, hc, hs] at h
          rw [Prod.ext_iff] at h
          exact ⟨_, h.1.symm, (Option.some.inj h.2).symm, finalise_active now _⟩
  · intro t now st k profile st' r h
    cases hp : getProject st k with
    | none =>
      simp only [launch_project, hp] at h
      exact absurd (Prod.ext_iff.mp h).2 (by simp)
    | some p =>
      simp only [launch_project, hp] at h
      rw [Prod.ext_iff] at h
      exact ⟨_, h.1.symm, (Option.some.inj h.2).symm, finalise_active now _⟩

/-- C5 witness: a concrete launch on a one-project state yields a
stored project whose `active` equals the derived-status test. -/
theorem active_iff_running_or_paused_witness :
    ∃ p', demoLaunch.1 = setProject [("one", oneComponentProject)] "one" p' ∧
      demoLaunch.2.getD (resultPayload oneComponentProject) = resultPayload p' ∧
      p'.active = (p'.status == "Running" || p'.status == "Paused") :=
  active_iff_running_or_paused.2 "10:00" T1 [("one", oneComponentProject)] "one" "dev"
    demoLaunch.1 (demoLaunch.2.getD (resultPayload oneComponentProject)) rfl

/-!
## C6 — unknown project key / component name is an inert no-op
-/

/-- C6: a component action against an unknown project key or an unknown
component name returns the empty result and leaves the whole service
state (hence the project) unchanged; it cannot raise. -/
theorem action_noop_unknown_target :
    (∀ (t : String) (now : DateTime) (st : ServiceState) (k c a : String),
      getProject st k = Option.none →
      componentAction t now st k c a = (st, Option.none)) ∧
    (∀ (t : String) (now : DateTime) (st : ServiceState) (k c a : String)
        (p : Project), getProject st k = some p → findComponent p c = Option.none →
      componentAction t now st k c a = (st, Option.none)) := by
  constructor
  · intro t now st k c a h
    simp [componentAction, h]
  · intro t now st k c a p hp hc
    simp [componentAction, hp, hc]

/-- C6 witness: a `start` against a missing component name, and against
a missing project key, both return the empty result and the unchanged
state on a concrete one-project service. -/
theorem action_noop_unknown_target_witness :
    componentAction "10:00" T1 [("demo", historyFullProject)] "ghost" "API" "start"
      = ([("demo", historyFullProject)], Option.none) ∧
    componentAction "10:00" T1 [("demo", historyFullProject)] "demo" "missing" "start"
      = ([("demo", historyFullProject)], Option.none) :=
  ⟨action_noop_unknown_target.1 "10:00" T1
      [("demo", historyFullProject)] "ghost" "API" "start" rfl,
   action_noop_unknown_target.2 "10:00" T1
      [("demo", historyFullProject)] "demo" "missing" "start" historyFullProject rfl rfl⟩

/-!
## C9 — unrecognized action string is an inert no-op
-/

/-- C9: for an existing project and existing component, an action
string outside `{start, stop, pause, resume}` returns the empty result
and leaves the service state — components, logs, history, status,
`active`, `updated_at` — completely unchanged. -/
theorem action_noop_unknown_action (t : String) (now : DateTime) (st : ServiceState)
    (k c a : String) (p : Project) (comp : Component)
    (hp : getProject st k = some p) (hc : findComponent p c = some comp)
    (ha : a ≠ "start" ∧ a ≠ "stop" ∧ a ≠ "pause" ∧ a ≠ "resume") :
    componentAction t now st k c a = (st, Option.none) := by
  obtain ⟨h1, h2, h3, h4⟩ := ha
  simp [componentAction, actionStep, hp, hc, h1, h2, h3, h4]

/-- C9 witness: a `"restart"` action against an existing project and
component is an inert no-op on a concrete state. -/
theorem action_noop_unknown_action_witness :
    componentAction "10:00" T1 [("one", oneComponentProject)] "one" "API Gateway" "restart"
      = ([("one", oneComponentProject)], Option.none) :=
  action_noop_unknown_action "10:00" T1 [("one", oneComponentProject)]
    "one" "API Gateway" "restart" oneComponentProject gatewayComponent
    rfl rfl (by decide)

/-!
## C3, C10 — upsert semantics
-/

lemma rowFor_none_any {db : Table} {k : String} (h : rowFor db k = Option.none) :
    db.any (fun r => r.key == k) = false := by
  rw [List.any_eq_false]
  intro x hx
  exact List.find?_eq_none.mp h x hx

lemma rowFor_some_any {db : Table} {k : String} {r : DbRow} (h : rowFor db k = some r) :
    db.any (fun x => x.key == k) = true := by
  unfold rowFor at h
  rw [List.any_eq_true]
  exact ⟨r, List.mem_of_find?_eq_some h, @List.find?_some _ (fun x => x.key == k) r db h⟩

lemma rowFor_append_single {db : Table} {k : String} (r : DbRow)
    (h : rowFor db k = Option.none) (hr : r.key = k) :
    rowFor (db ++ [r]) k = some r := by
  unfold rowFor at h ⊢
  rw [List.find?_append, h, Option.none_or]
  exact List.find?_cons_of_pos _ (by simp [hr])

lemma rowFor_map_update (new : DbRow) (k : String) (hk : new.key = k) :
    ∀ (db : Table) (r : DbRow), rowFor db k = some r →
    rowFor (db.map fun x => if x.key == k then { new with created_at := x.created_at } else x) k
      = some { new with created_at := r.created_at } := by
  intro db
  induction db with
  | nil => intro r h; cases h
  | cons x xs ih =>
    intro r h
    unfold rowFor at h ⊢
    by_cases hx : (x.key == k) = true
    · rw [@List.find?_cons_of_pos _ (fun y => y.key == k) x xs hx] at h
      obtain rfl : x = r := Option.some.inj h
      simp only [List.map_cons, if_pos hx]
      exact List.find?_cons_of_pos _ (by simp [hk])
    · rw [@List.find?_cons_of_neg _ (fun y => y.key == k) x xs hx] at h
      simp only [List.map_cons, if_neg hx]
      rw [@List.find?_cons_of_neg _ (fun y => y.key == k) x _ hx]
      exact ih r h

/-- A successful upsert returns the argument project with `created_at`
filled and `updated_at` refreshed, and the resulting table. -/
lemma upsert_success (now : DateTime) (db : Table) (p : Project)
    {db' : Table} {p' : Project}
    (h : upsert_project now db p = some (db', p')) :
    p' = { p with created_at := filledCreatedAt now (db_get_project db p.key) p,
                  updated_at := some now } ∧
    ∃ c, filledCreatedAt now (db_get_project db p.key) p = some c ∧
      db' = (if db.any (fun r => r.key == p.key) then
               db.map (fun r => if r.key == p.key then
                 { upsertRow now p' c with created_at := r.created_at } else r)
             else db ++ [upsertRow now p' c]) := by
  unfold upsert_project at h
  cases hq : filledCreatedAt now (db_get_project db p.key) p with
  | none =>
    simp only [hq] at h
    exact Option.noConfusion h
  | some c =>
    simp only [hq] at h
    by_cases hany : (db.any (fun r => r.key == p.key)) = true
    · rw [if_pos hany] at h
      have h' := Option.some.inj h
      rw [Prod.mk.injEq] at h'
      obtain ⟨hdb, hp⟩ := h'
      subst hdb
      subst hp
      refine ⟨rfl, c, rfl, ?_⟩
      rw [if_pos hany]
    · rw [if_neg hany] at h
      have h' := Option.some.inj h
      rw [Prod.mk.injEq] at h'
      obtain ⟨hdb, hp⟩ := h'
      subst hdb
      subst hp
      refine ⟨rfl, c, rfl, ?_⟩
      rw [if_neg hany]

/-- C3: `upsert_project` is insert-or-replace keyed by `key`.  On a
first insert of a project carrying no `created_at`, both the returned
project and the stored row get `created_at = now`.  On replace of an
existing key, the stored row keeps its `created_at` while its
`updated_at` becomes `now`.  Upserting the same project twice therefore
preserves the original `created_at` (object and row) while only
`updated_at` advances. -/
theorem upsert_created_at_correct :
    (∀ (now : DateTime) (db : Table) (p : Project),
      rowFor db p.key = Option.none → p.created_at = Option.none →
      ∃ db' p', upsert_project now db p = some (db', p') ∧
        p'.created_at = some now ∧ p'.updated_at = some now ∧
        ∃ r, rowFor db' p.key = some r ∧ r.created_at = now.val ∧
          r.updated_at = now.val) ∧
    (∀ (now : DateTime) (db : Table) (p : Project) (r : DbRow)
        (db' : Table) (p' : Project),
      rowFor db p.key = some r →
      upsert_project now db p = some (db', p') →
      ∃ r', rowFor db' p.key = some r' ∧ r'.created_at = r.created_at ∧
        r'.updated_at = now.val) ∧
    (∀ (now₁ now₂ : DateTime) (db : Table) (p : Project)
        (db₁ : Table) (p₁ : Project) (db₂ : Table) (p₂ : Project),
      upsert_project now₁ db p = some (db₁, p₁) →
      upsert_project now₂ db₁ p₁ = some (db₂, p₂) →
      p₂.created_at = p₁.created_at ∧ p₂.updated_at = some now₂ ∧
      (∀ r₁ r₂, rowFor db₁ p.key = some r₁ → rowFor db₂ p.key = some r₂ →
        r₂.created_at = r₁.created_at ∧ r₂.updated_at = now₂.val)) := by
  refine ⟨?_, ?_, ?_⟩
  · intro now db p hrow hc
    have hex : db_get_project db p.key = Option.none := by
      unfold db_get_project
      rw [hrow]
      rfl
    have hq : filledCreatedAt now (db_get_project db p.key) p = some now := by
      rw [hex]
      simp [filledCreatedAt, hc]
    unfold upsert_project
    simp only [hq, rowFor_none_any hrow, if_neg, Bool.false_eq_true, not_false_iff,
      if_false]
    refine ⟨_, _, rfl, by simp [hq], rfl, ?_⟩
    exact ⟨_, rowFor_append_single _ hrow rfl, rfl, rfl⟩
  · intro now db p r db' p' hrow hup
    obtain ⟨hp', c, hq, hdb'⟩ := upsert_success now db p hup
    rw [if_pos (rowFor_some_any hrow)] at hdb'
    subst hdb'
    exact ⟨_, rowFor_map_update _ p.key (by rw [hp']; rfl) db r hrow, rfl, rfl⟩
  · intro now₁ now₂ db p db₁ p₁ db₂ p₂ h1 h2
    obtain ⟨hp₁, c₁, hq₁, hdb₁⟩ := upsert_success now₁ db p h1
    obtain ⟨hp₂, c₂, hq₂, hdb₂⟩ := upsert_success now₂ db₁ p₁ h2
    have hk₁ : p₁.key = p.key := by rw [hp₁]
    have hc₁ : p₁.created_at = some c₁ := by simp [hp₁, hq₁]
    have hfill₂ : filledCreatedAt now₂ (db_get_project db₁ p₁.key) p₁ = some c₁ := by
      unfold filledCreatedAt
      rw [if_neg (by simp [hc₁])]
      exact hc₁
    refine ⟨?_, ?_, ?_⟩
    · simp [hp₂, hfill₂, hc₁]
    · simp [hp₂]
    · intro r₁ r₂ hr₁ hr₂
      rw [← hk₁] at hr₁ hr₂
      have hmap := rowFor_map_update (upsertRow now₂ p₂ c₂) p₁.key (by rw [hp₂]; rfl) db₁ r₁ hr₁
      have hrow₂ : rowFor db₂ p₁.key
          = some { upsertRow now₂ p₂ c₂ with created_at := r₁.created_at } := by
        rw [hdb₂, if_pos (rowFor_some_any hr₁)]
        exact hmap
      rw [hr₂] at hrow₂
      obtain rfl := Option.some.inj hrow₂
      exact ⟨rfl, rfl⟩

/-- C3 witness: inserting the fresh `demoProjectA` at `T1` and
re-upserting the returned project at `T2` keeps `created_at = T1` on
the object and the row, while `updated_at` advances to `T2`. -/
theorem upsert_created_at_correct_witness :
    demoP2.created_at = demoP1.created_at ∧ demoP2.updated_at = some T2 ∧
    (∀ r₁ r₂, rowFor demoDb1 demoProjectA.key = some r₁ →
      rowFor demoDb2 demoProjectA.key = some r₂ →
      r₂.created_at = r₁.created_at ∧ r₂.updated_at = T2.val) :=
  upsert_created_at_correct.2.2 T1 T2 [] demoProjectA demoDb1 demoP1 demoDb2 demoP2
    rfl rfl

/-- C10: the project returned by a successful `upsert_project` is the
argument with `updated_at` set to `now` and `created_at` filled (from
the stored project when the key exists, else from `now`) only when the
argument carried none; every other field is untouched. -/
theorem upsert_frame (now : DateTime) (db : Table) (p : Project)
    (db' : Table) (p' : Project)
    (h : upsert_project now db p = some (db', p')) :
    p'.key = p.key ∧ p'.name = p.name ∧ p'.icon = p.icon ∧
    p'.default_profile = p.default_profile ∧ p'.summary = p.summary ∧
    p'.tags = p.tags ∧ p'.status = p.status ∧ p'.favorite = p.favorite ∧
    p'.active = p.active ∧ p'.last_profile = p.last_profile ∧
    p'.usage_hours = p.usage_hours ∧ p'.components = p.components ∧
    p'.quick_links = p.quick_links ∧ p'.folders = p.folders ∧
    p'.history = p.history ∧ p'.health_checks = p.health_checks ∧
    p'.updated_at = some now ∧
    p'.created_at = (match p.created_at with
      | some c => some c
      | Option.none =>
        match db_get_project db p.key with
        | some e => e.created_at
        | Option.none => some now) := by
  obtain ⟨hp', c, hq, hdb'⟩ := upsert_success now db p h
  subst hp'
  refine ⟨rfl, rfl, rfl, rfl, rfl, rfl, rfl, rfl, rfl, rfl, rfl, rfl, rfl, rfl,
    rfl, rfl, rfl, ?_⟩
  show filledCreatedAt now (db_get_project db p.key) p = _
  cases hc : p.created_at with
  | none =>
    unfold filledCreatedAt
    rw [hc, if_pos rfl]
  | some c0 =>
    unfold filledCreatedAt
    rw [hc, if_neg (by simp)]

/-- C10 witness: the first upsert of `demoProjectA` returns the same
field values except `created_at`/`updated_at`, both set to `T1`
(`demoProjectA` carried no timestamps and the table was empty). -/
theorem upsert_frame_witness :
    demoP1.key = demoProjectA.key ∧ demoP1.name = demoProjectA.name ∧
    demoP1.icon = demoProjectA.icon ∧
    demoP1.default_profile = demoProjectA.default_profile ∧
    demoP1.summary = demoProjectA.summary ∧ demoP1.tags = demoProjectA.tags ∧
    demoP1.status = demoProjectA.status ∧ demoP1.favorite = demoProjectA.favorite ∧
    demoP1.active = demoProjectA.active ∧
    demoP1.last_profile = demoProjectA.last_profile ∧
    demoP1.usage_hours = demoProjectA.usage_hours ∧
    demoP1.components = demoProjectA.components ∧
    demoP1.quick_links = demoProjectA.quick_links ∧
    demoP1.folders = demoProjectA.folders ∧ demoP1.history = demoProjectA.history ∧
    demoP1.health_checks = demoProjectA.health_checks ∧
    demoP1.updated_at = some T1 ∧
    demoP1.created_at = (match demoProjectA.created_at with
      | some c => some c
      | Option.none =>
        match db_get_project [] demoProjectA.key with
        | some e => e.created_at
        | Option.none => some T1) :=
  upsert_frame T1 [] demoProjectA demoDb1 demoP1 rfl

/-!
## C8 — list_projects ordering
-/

lemma charListLe_total : ∀ as bs : List Char,
    charListLe as bs = true ∨ charListLe bs as = true := by
  intro as
  induction as with
  | nil => intro bs; left; rfl
  | cons a as ih =>
    intro bs
    cases bs with
    | nil => right; rfl
    | cons b bs =>
      by_cases hab : a = b
      · subst hab
        rcases ih bs with h | h
        · left; simpa [charListLe] using h
        · right; simpa [charListLe] using h
      · rcases lt_trichotomy a b with h | h | h
        · left; simp [charListLe, hab, h]
        · exact absurd h hab
        · right; simp [charListLe, Ne.symm hab, h, not_lt_of_gt h]

lemma charListLe_trans : ∀ as bs cs : List Char,
    charListLe as bs = true → charListLe bs cs = true → charListLe as cs = true := by
  intro as
  induction as with
  | nil => intro bs cs _ _; rfl
  | cons a as ih =>
    intro bs cs h1 h2
    cases bs with
    | nil => cases h1
    | cons b bs =>
      cases cs with
      | nil => cases h2
      | cons c cs =>
        by_cases hab : a = b <;> by_cases hbc : b = c
        · subst hab
          subst hbc
          simp only [charListLe, if_pos rfl] at h1 h2 ⊢
          exact ih bs cs h1 h2
        · subst hab
          simp only [charListLe, if_pos rfl, if_neg hbc] at h2 ⊢
          simp [hbc, h2]
        · subst hbc
          simp only [charListLe, if_pos rfl, if_neg hab] at h1 ⊢
          simp [hab, h1]
        · simp only [charListLe, if_neg hab, if_neg hbc, decide_eq_true_eq] at h1 h2
          have hac : a < c := lt_trans h1 h2
          simp [charListLe, ne_of_lt hac, hac]

/-- C8 counterexample: after storing projects named `"a"` and `"B"`,
`list_projects` returns them in the order `["B", "a"]` (BINARY
collation), which violates case-insensitive ascending order: lowered,
the adjacent pair is `("b", "a")` and `"b" ≤ "a"` fails. -/
theorem list_projects_ci_counterexample :
    (db_list_projects demoTable).map Project.name = ["B", "a"] ∧
    strLower "B" = "b" ∧ strLower "a" = "a" ∧
    nameLe (strLower "B") (strLower "a") = false := by
  refine ⟨?_, rfl, rfl, ?_⟩ <;> rfl

/-- C8 amended: `list_projects` returns all stored projects ordered by
the `name` column ascending under SQLite's case-sensitive BINARY
collation (codepoint order), not case-insensitively; whenever each
stored row's payload name matches its `name` column (true of every row
`upsert_project` writes), every pair of returned projects appears in
`nameLe` order of their names. -/
theorem list_projects_sorted_binary :
    (∀ db : Table, (db_list_projects db).Perm (db.map rowToProject)) ∧
    (∀ db : Table, (∀ r ∈ db, (rowToProject r).name = r.name) →
      (db_list_projects db).Pairwise (fun p q => nameLe p.name q.name = true)) := by
  constructor
  · intro db
    exact (List.perm_insertionSort rowNameLe db).map rowToProject
  · intro db h
    haveI : IsTotal DbRow rowNameLe :=
      ⟨fun a b => charListLe_total a.name.toList b.name.toList⟩
    haveI : IsTrans DbRow rowNameLe :=
      ⟨fun a b c hab hbc => charListLe_trans a.name.toList b.name.toList c.name.toList hab hbc⟩
    have hs : (List.insertionSort rowNameLe db).Pairwise rowNameLe :=
      List.sorted_insertionSort rowNameLe db
    unfold db_list_projects
    rw [List.pairwise_map]
    refine hs.imp_of_mem ?_
    intro a b ha hb hab
    have ha' : a ∈ db := (List.perm_insertionSort rowNameLe db).mem_iff.mp ha
    have hb' : b ∈ db := (List.perm_insertionSort rowNameLe db).mem_iff.mp hb
    rw [h a ha', h b hb']
    exact hab

/-- C8 witness: on the concrete two-project table the returned list is
in `nameLe` order of the names. -/
theorem list_projects_sorted_binary_witness :
    (db_list_projects demoTable).Pairwise (fun p q => nameLe p.name q.name = true) :=
  list_projects_sorted_binary.2 demoTable (by decide)

end LaunchPad
